import Mathlib

/-!
Verification of the `notion-auto-squash-rankings` synchronization core.

The development shallowly embeds `notion_writers/NotionWriter.py`:
the pure helpers (`get_player_emoji`, `get_player_country`,
`build_page_object`, `get_current_pages_id`, `delete_pages`) are
translated directly from the source; the abstract `update_db`
orchestration (declared but not implemented under `src/`) is modelled
from the specification.  The external Notion page store is modelled as
an explicit state (a list of pages plus success policies for archive
and create requests), and every store round trip is made visible as a
request trace so that ordering and early-stopping properties can be
stated.
-/

namespace NotionSync

/-- A minimal JSON value type: page payloads and store response bodies
are JSON dictionaries in the source. -/
inductive Json where
  | str : String → Json
  | num : Int → Json
  | bool : Bool → Json
  | null : Json
  | arr : List Json → Json
  | obj : List (String × Json) → Json

/-- Dictionary lookup on a JSON value: `some` on an object that has the
key (Python `d[k]`), `none` when the key is absent or the value is not
an object (Python raises `KeyError` / `TypeError` there). -/
def jsonGet (j : Json) (k : String) : Option Json :=
  match j with
  | Json.obj kvs => kvs.lookup k
  | _ => none

/-- One ranking entry as produced by the external feed: the source
reads `page_info["name"]` and `page_info["rank"]`; the country code is
carried by the feed but (as proved below) never read during page
construction. -/
structure RankedEntity where
  name : String
  rank : Int
  country : Option String
deriving DecidableEq, Repr

/-- An HTTP response from the store: the `ok` flag (2xx status) and the
parsed JSON body. -/
structure Response where
  ok : Bool
  body : Json

/-- The state a `NotionWriter` holds after construction: the credential
and the database id (`self.notion_api_key`, `self.db_id`). -/
structure NotionWriterState where
  notion_api_key : String
  db_id : String
deriving DecidableEq, Repr

/-- A calendar date, standing in for `datetime.now().date()`. -/
structure Date where
  year : Nat
  month : Nat
  day : Nat
deriving DecidableEq, Repr

/-- Left-pad the decimal digits of `n` with zeros to width `w`,
as Python's `%0wd`. -/
def padNum (w : Nat) (n : Nat) : String :=
  let s := toString n
  if s.length < w then String.mk (List.replicate (w - s.length) (Char.ofNat 48)) ++ s
  else s

/-- `str(date)` in Python: ISO `YYYY-MM-DD` with zero padding. -/
def dateStr (d : Date) : String :=
  padNum 4 d.year ++ "-" ++ padNum 2 d.month ++ "-" ++ padNum 2 d.day

/-- `NotionWriter.get_player_emoji`: the medal emoji for ranks 1, 2, 3
and the generic person emoji otherwise. -/
def get_player_emoji (player_rank : Int) : String :=
  if player_rank == 1 then "🏅"
  else if player_rank == 2 then "🥈"
  else if player_rank == 3 then "🥉"
  else "👤"

/-- `NotionWriter.countries`: the fixed table of supported alpha-3
country codes, in source order. -/
def countries : List (String × String) :=
  [ ("EGY", "🇪🇬 Egypt"),
    ("NZL", "🇳🇿 New Zealand"),
    ("ENG", "🇬🇧 England"),
    ("PER", "🇵🇪 Peru"),
    ("FRA", "🇫🇷 France"),
    ("WAL", "🏴󠁧󠁢󠁷󠁬󠁳󠁿 Wales"),
    ("COL", "🇨🇴 Colombia"),
    ("IND", "🇮🇳 India"),
    ("SUI", "🇨🇭 Switzerland"),
    ("GER", "🇩🇪 Germany"),
    ("USA", "🇺🇸 United States"),
    ("QAT", "🇶🇦 Qatar"),
    ("SCO", "🏴󠁧󠁢󠁳󠁣󠁴󠁿 Scotland"),
    ("MEX", "🇲🇽 Mexico"),
    ("ESP", "🇪🇸 Spain"),
    ("HKG", "🇭🇰 Hong-Kong"),
    ("PAK", "🇵🇰 Pakistan"),
    ("HUN", "🇭🇺 Hungary"),
    ("POR", "🇵🇹 Portugal"),
    ("ARG", "🇦🇷 Argentina"),
    ("CAN", "🇨🇦 Canada"),
    ("MAS", "🇲🇾 Malaysia"),
    ("JPN", "🇯🇵 Japan"),
    ("GUA", "🇬🇹 Guatemala"),
    ("BEL", "🇧🇪 Belgium"),
    ("RSA", "🇿🇦 South Africa") ]

/-- `NotionWriter.get_player_country`: table lookup with identity
fallback for codes that are not in the table. -/
def get_player_country (player_country : String) : String :=
  match countries.lookup player_country with
  | some label => label
  | none => player_country

/-- `NotionWriter.build_page_object`: the page-creation payload.  The
date argument stands for `datetime.now().date()`; the parent container
is attached exactly when `to_post` is true. -/
def build_page_object (db_id : String) (today : Date) (page_info : RankedEntity)
    (to_post : Bool) : Json :=
  let base : List (String × Json) :=
    [ ("icon", Json.obj [("emoji", Json.str (get_player_emoji page_info.rank))]),
      ("properties", Json.obj
        [ ("Player's name", Json.obj
            [ ("title", Json.arr
                [ Json.obj
                    [ ("type", Json.str "text"),
                      ("text", Json.obj [("content", Json.str page_info.name)]) ] ]) ]),
          ("Rank", Json.obj [("number", Json.num page_info.rank)]),
          ("Date", Json.obj
            [ ("date", Json.obj
                [ ("start", Json.str (dateStr today)),
                  ("end", Json.null),
                  ("time_zone", Json.null) ]) ]) ]) ]
  if to_post then Json.obj (base ++ [("parent", Json.obj [("database_id", Json.str db_id)])])
  else Json.obj base

/-- Extract `page["id"]` from each element of the `results` array, in
order; a missing key is Python's `KeyError`. -/
def extractIds : List Json → Except String (List Json)
  | [] => Except.ok []
  | page :: rest =>
    match jsonGet page "id" with
    | none => Except.error "KeyError: id"
    | some v => (extractIds rest).map (fun ids => v :: ids)

/-- `NotionWriter.get_current_pages_id`, as a function of the store's
query response: reads `response.json()["results"]` without ever
consulting the HTTP status, and collects the id of each result.  The
`ok` flag of the response is never examined. -/
def get_current_pages_id (res : Response) : Except String (List Json) :=
  match jsonGet res.body "results" with
  | none => Except.error "KeyError: results"
  | some (Json.arr pages) => extractIds pages
  | some _ => Except.error "TypeError: results is not iterable"

/-- The page store: the pages currently in active view (id with the
payload they were created from, in creation order), a counter from
which the store mints fresh page ids, and the store's success policies
for archive and create round trips (which requests it accepts). -/
structure Store where
  pages : List (String × Json)
  nextId : Nat
  archiveOk : String → Bool
  createOk : Json → Bool

/-- The id the store mints for the `n`-th page it ever creates. -/
def freshPageId (n : Nat) : String := "page-" ++ toString n

/-- One archive (soft-delete) round trip: on success the page
disappears from active view; on failure the store is unchanged. -/
def Store.archive (s : Store) (pid : String) : Bool × Store :=
  if s.archiveOk pid then
    (true, { s with pages := s.pages.filter (fun p => p.1 != pid) })
  else (false, s)

/-- One create-page round trip: on success the page is appended under a
fresh id; on failure the store is unchanged. -/
def Store.create (s : Store) (payload : Json) : Bool × Store :=
  if s.createOk payload then
    (true, { s with pages := s.pages ++ [(freshPageId s.nextId, payload)],
                    nextId := s.nextId + 1 })
  else (false, s)

/-- The JSON body the store returns for a database query: the pages in
store order, each carrying its id. -/
def Store.queryResponse (s : Store) : Response :=
  ⟨true, Json.obj [("results", Json.arr (s.pages.map (fun p => Json.obj [("id", Json.str p.1)])))]⟩

/-- The ids of the pages currently in the store, in store order; this
is what `get_current_pages_id` recovers from `Store.queryResponse`
(proved below). -/
def list_current_page_ids (s : Store) : List String := s.pages.map Prod.fst

/-- `NotionWriter.__init__`: issues the single existence check
`GET /databases/{db_id}` against the store, raises (here: returns
`Except.error` with the body's `message`) when the store answers
non-2xx, and otherwise retains the credential and database id.  The
second component is the trace of database ids checked. -/
def NotionWriter_init (verify : String → Response) (notion_api_key db_id : String) :
    Except (Option Json) NotionWriterState × List String :=
  let res := verify db_id
  if res.ok then (Except.ok ⟨notion_api_key, db_id⟩, [db_id])
  else (Except.error (jsonGet res.body "message"), [db_id])

/-- Outcome of a `delete_pages` run: the boolean result, the store
afterwards, and the archive requests issued (in order). -/
structure DeleteRun where
  success : Bool
  store : Store
  requests : List String

/-- `NotionWriter.delete_pages`: archive each page id in the given
order, returning `false` at the first request the store rejects (no
later id is attempted) and `true` once every id is archived. -/
def delete_pages (s : Store) : List String → DeleteRun
  | [] => ⟨true, s, []⟩
  | pid :: rest =>
    let step := s.archive pid
    if step.1 then
      let r := delete_pages step.2 rest
      ⟨r.success, r.store, pid :: r.requests⟩
    else ⟨false, step.2, [pid]⟩

/-- Outcome of the insertion loop: the boolean result, the store
afterwards, and the create-page payloads submitted (in order). -/
structure CreateRun where
  success : Bool
  store : Store
  requests : List Json

/-- Modelled from the spec: steps 3–4 of `update_db` (the concrete
implementation of the abstract `NotionWriter.update_db` is not under
`src/`).  For each entity in input order, build its page object with
`for_insertion = true` and submit a create-page request; stop at the
first failure; succeed only if every request succeeds. -/
def create_pages (today : Date) (db_id : String) (s : Store) :
    List RankedEntity → CreateRun
  | [] => ⟨true, s, []⟩
  | e :: rest =>
    let payload := build_page_object db_id today e true
    let step := s.create payload
    if step.1 then
      let r := create_pages today db_id step.2 rest
      ⟨r.success, r.store, payload :: r.requests⟩
    else ⟨false, step.2, [payload]⟩

/-- Outcome of an `update_db` run: the boolean result, the store
afterwards, and the archive / create requests issued. -/
structure UpdateRun where
  success : Bool
  store : Store
  archiveRequests : List String
  createRequests : List Json

/-- Modelled from the spec: `NotionWriter.update_db` is abstract in the
source, so the orchestration is taken from the specification's
algorithm — fetch the current page ids, delete them (aborting with
`false` on failure, issuing no create), then build and insert a page
per entity in input order, returning `true` only if every create
succeeds. -/
def update_db (today : Date) (w : NotionWriterState) (s : Store)
    (entities : List RankedEntity) : UpdateRun :=
  let d := delete_pages s (list_current_page_ids s)
  if d.success then
    let c := create_pages today w.db_id d.store entities
    ⟨c.success, c.store, d.requests, c.requests⟩
  else ⟨false, d.store, d.requests, []⟩

/-- The pages a successful insertion loop appends: entity `i` of the
run becomes a page with id `freshPageId (n + i)` and its built payload. -/
def newPages (db_id : String) (today : Date) : Nat → List RankedEntity → List (String × Json)
  | _, [] => []
  | n, e :: rest =>
    (freshPageId n, build_page_object db_id today e true) :: newPages db_id today (n + 1) rest

/-- A date, a syncer state, ranking entries and stores used to
instantiate the claims on concrete runs. -/
def sampleDate : Date := ⟨2024, 5, 1⟩

def sampleWriter : NotionWriterState := ⟨"key0", "db0"⟩

def sampleStoreAllOk : Store :=
  ⟨[("a", Json.null), ("b", Json.null)], 2, fun _ => true, fun _ => true⟩

def sampleStoreRejectB : Store :=
  ⟨[("a", Json.null), ("b", Json.null), ("c", Json.null)], 3,
   fun pid => pid != "b", fun _ => true⟩

def sampleEntities : List RankedEntity :=
  [⟨"Alice", 1, some "FRA"⟩, ⟨"Bob", 2, some "USA"⟩]

/-! ## Supporting lemmas -/

/-- A key that is not among an association list's keys looks up to nothing. -/
theorem lookup_none_of_not_mem_keys {β : Type} (c : String) (l : List (String × β))
    (h : c ∉ l.map Prod.fst) : l.lookup c = none := by
  induction l with
  | nil => rfl
  | cons p rest ih =>
    simp only [List.map_cons, List.mem_cons, not_or] at h
    obtain ⟨h1, h2⟩ := h
    simp [List.lookup, beq_eq_false_iff_ne.mpr h1, ih h2]

/-- `freshPageId` always begins with the letter p, so no page id that
starts otherwise can collide with a store-minted id. -/
theorem ne_freshPageId_of_head (pid : String) (hhead : pid.data.head? ≠ some 'p')
    (k : Nat) : pid ≠ freshPageId k := by
  intro he
  apply hhead
  rw [he]
  show ("page-".data ++ (toString k).data).head? = some 'p'
  rfl

/-! ## C7: emoji by rank -/

/-- C7: `emoji_for_rank` returns 🏅 at rank 1, 🥈 at rank 2, 🥉 at rank 3,
and 👤 at every other integer rank. -/
theorem get_player_emoji_spec :
    get_player_emoji 1 = "🏅" ∧ get_player_emoji 2 = "🥈" ∧ get_player_emoji 3 = "🥉"
    ∧ ∀ r : Int, r ≠ 1 → r ≠ 2 → r ≠ 3 → get_player_emoji r = "👤" := by
  refine ⟨rfl, rfl, rfl, ?_⟩
  intro r h1 h2 h3
  simp [get_player_emoji, h1, h2, h3]

/-- Witness for C7, covering rank 0 and a negative rank. -/
theorem get_player_emoji_spec_witness :
    get_player_emoji 0 = "👤" ∧ get_player_emoji (-5) = "👤" :=
  ⟨get_player_emoji_spec.2.2.2 0 (by decide) (by decide) (by decide),
   get_player_emoji_spec.2.2.2 (-5) (by decide) (by decide) (by decide)⟩

/-! ## C8: country labels -/

/-- C8: `label_for_country` maps each of the 26 codes of the fixed table
to its documented flag-plus-name label, and is the identity on every
string outside the table. -/
theorem get_player_country_spec :
    (∀ p ∈ countries, get_player_country p.1 = p.2)
    ∧ (∀ c : String, c ∉ countries.map Prod.fst → get_player_country c = c)
    ∧ countries.length = 26 := by
  refine ⟨by decide, ?_, rfl⟩
  intro c h
  unfold get_player_country
  rw [lookup_none_of_not_mem_keys c countries h]

/-- Witness for C8: a known code and an unknown one. -/
theorem get_player_country_spec_witness :
    get_player_country "FRA" = "🇫🇷 France" ∧ get_player_country "ZZZ" = "ZZZ" :=
  ⟨get_player_country_spec.1 ("FRA", "🇫🇷 France") (by decide),
   get_player_country_spec.2.1 "ZZZ" (by decide)⟩

/-! ## C5: parent container -/

/-- C5: `build_page(entity, true)` attaches a `parent.database_id` equal
to the syncer's configured database id, and `build_page(entity, false)`
carries no `parent` field. -/
theorem build_page_object_parent (w : NotionWriterState) (today : Date) (e : RankedEntity) :
    jsonGet (build_page_object w.db_id today e true) "parent"
        = some (Json.obj [("database_id", Json.str w.db_id)])
    ∧ jsonGet (build_page_object w.db_id today e false) "parent" = none :=
  ⟨rfl, rfl⟩

/-! ## C6: page payload fields -/

/-- C6: the built page object carries exactly the documented fields —
the rank emoji as icon, the entity name as a single rich-text title
element, the numeric rank, and today's date with no end and no
timezone. -/
theorem build_page_object_fields (w : NotionWriterState) (today : Date)
    (e : RankedEntity) (b : Bool) :
    jsonGet (build_page_object w.db_id today e b) "icon"
        = some (Json.obj [("emoji", Json.str (get_player_emoji e.rank))])
    ∧ jsonGet (build_page_object w.db_id today e b) "properties"
        = some (Json.obj
            [ ("Player's name", Json.obj
                [ ("title", Json.arr
                    [ Json.obj
                        [ ("type", Json.str "text"),
                          ("text", Json.obj [("content", Json.str e.name)]) ] ]) ]),
              ("Rank", Json.obj [("number", Json.num e.rank)]),
              ("Date", Json.obj
                [ ("date", Json.obj
                    [ ("start", Json.str (dateStr today)),
                      ("end", Json.null),
                      ("time_zone", Json.null) ]) ]) ]) := by
  cases b <;> exact ⟨rfl, rfl⟩

/-! ## C9: country noninterference -/

/-- C9: the built page object never depends on the entity's country —
two entities with equal name and rank build identical payloads on the
same day and flag, whatever their country codes. -/
theorem build_page_object_country_independent (db : String) (today : Date)
    (e1 e2 : RankedEntity) (b : Bool) (hn : e1.name = e2.name) (hr : e1.rank = e2.rank) :
    build_page_object db today e1 b = build_page_object db today e2 b := by
  unfold build_page_object
  rw [hn, hr]

/-- Witness for C9: same name and rank, different country codes. -/
theorem build_page_object_country_independent_witness :
    build_page_object "db0" ⟨2024, 5, 1⟩ ⟨"Alice", 1, some "FRA"⟩ true
      = build_page_object "db0" ⟨2024, 5, 1⟩ ⟨"Alice", 1, none⟩ true :=
  build_page_object_country_independent "db0" ⟨2024, 5, 1⟩ _ _ true rfl rfl

/-! ## C10: listing page ids -/

/-- When every result pairs with its id value, `extractIds` collects
exactly those ids, in order. -/
theorem extractIds_ok_of_forall2 (pages ids : List Json)
    (h : List.Forall₂ (fun p v => jsonGet p "id" = some v) pages ids) :
    extractIds pages = Except.ok ids := by
  induction h with
  | nil => rfl
  | cons hpv _ ih => simp [extractIds, hpv, ih, Except.map]

/-- C10: `list_current_page_ids` ignores the response's success flag;
on any body with a `results` array it returns the id of each result in
store order, and on a body with no `results` field it fails with an
exception instead of returning a list. -/
theorem get_current_pages_id_spec (b1 b2 : Bool) (body : Json) :
    (get_current_pages_id ⟨b1, body⟩ = get_current_pages_id ⟨b2, body⟩)
    ∧ (∀ pages ids, jsonGet body "results" = some (Json.arr pages) →
        List.Forall₂ (fun p v => jsonGet p "id" = some v) pages ids →
        get_current_pages_id ⟨b1, body⟩ = Except.ok ids)
    ∧ (jsonGet body "results" = none →
        ∃ msg, get_current_pages_id ⟨b1, body⟩ = Except.error msg) := by
  refine ⟨rfl, ?_, ?_⟩
  · intro pages ids hres hids
    unfold get_current_pages_id
    rw [hres]
    exact extractIds_ok_of_forall2 pages ids hids
  · intro hres
    unfold get_current_pages_id
    rw [hres]
    exact ⟨"KeyError: results", rfl⟩

/-- Witness for C10: a two-result body yields its two ids in order, and
a body with no `results` field errors out. -/
theorem get_current_pages_id_spec_witness :
    get_current_pages_id
        ⟨false, Json.obj [("results", Json.arr
          [Json.obj [("id", Json.str "a")], Json.obj [("id", Json.str "b")]])]⟩
      = Except.ok [Json.str "a", Json.str "b"]
    ∧ ∃ msg, get_current_pages_id ⟨false, Json.obj [("ok", Json.bool true)]⟩
      = Except.error msg :=
  ⟨(get_current_pages_id_spec false true
      (Json.obj [("results", Json.arr
        [Json.obj [("id", Json.str "a")], Json.obj [("id", Json.str "b")]])])).2.1
      _ _ rfl
      (List.Forall₂.cons rfl (List.Forall₂.cons rfl List.Forall₂.nil)),
   (get_current_pages_id_spec false true (Json.obj [("ok", Json.bool true)])).2.2 rfl⟩

/-- The store's query response round-trips: `get_current_pages_id`
recovers exactly the stored ids, in store order. -/
theorem get_current_pages_id_queryResponse (s : Store) :
    get_current_pages_id s.queryResponse
      = Except.ok ((list_current_page_ids s).map Json.str) := by
  unfold get_current_pages_id Store.queryResponse list_current_page_ids
  show extractIds (s.pages.map (fun p => Json.obj [("id", Json.str p.1)]))
      = Except.ok ((s.pages.map Prod.fst).map Json.str)
  induction s.pages with
  | nil => rfl
  | cons p rest ih => simp [extractIds, ih, Except.map, jsonGet]

/-! ## C3: construction check -/

/-- C3: construction issues exactly one existence check, for the given
database id; it fails (retaining no state) precisely when the store
answers non-2xx, and otherwise stores the credential and database id. -/
theorem notionWriter_init_spec (verify : String → Response) (key db_id : String) :
    ((NotionWriter_init verify key db_id).2 = [db_id])
    ∧ ((∃ msg, (NotionWriter_init verify key db_id).1 = Except.error msg)
        ↔ (verify db_id).ok = false)
    ∧ ((verify db_id).ok = true →
        (NotionWriter_init verify key db_id).1 = Except.ok ⟨key, db_id⟩) := by
  unfold NotionWriter_init
  cases h : (verify db_id).ok <;> simp [h]

/-- Witness for C3: a store that accepts the pair stores it; one that
rejects it makes construction fail, after the single check. -/
theorem notionWriter_init_spec_witness :
    (NotionWriter_init (fun _ => ⟨true, Json.obj []⟩) "key0" "db0").1
        = Except.ok ⟨"key0", "db0"⟩
    ∧ (∃ msg, (NotionWriter_init
          (fun _ => ⟨false, Json.obj [("message", Json.str "bad database id")]⟩)
          "key0" "db0").1 = Except.error msg)
    ∧ (NotionWriter_init
          (fun _ => ⟨false, Json.obj [("message", Json.str "bad database id")]⟩)
          "key0" "db0").2 = ["db0"] :=
  ⟨(notionWriter_init_spec (fun _ => ⟨true, Json.obj []⟩) "key0" "db0").2.2 rfl,
   ((notionWriter_init_spec
      (fun _ => ⟨false, Json.obj [("message", Json.str "bad database id")]⟩)
      "key0" "db0").2.1).mpr rfl,
   (notionWriter_init_spec
      (fun _ => ⟨false, Json.obj [("message", Json.str "bad database id")]⟩)
      "key0" "db0").1⟩

/-! ## Archive and deletion lemmas -/

/-- A successful archive removes all pages with the archived id; either
way the policies and the id counter are untouched. -/
theorem archive_preserves (s : Store) (pid : String) :
    (s.archive pid).2.archiveOk = s.archiveOk
    ∧ (s.archive pid).2.createOk = s.createOk
    ∧ (s.archive pid).2.nextId = s.nextId := by
  unfold Store.archive
  split <;> exact ⟨rfl, rfl, rfl⟩

/-- `delete_pages` succeeds exactly when the store accepts the archive
of every id in the list. -/
theorem delete_pages_success_iff (s : Store) (ids : List String) :
    (delete_pages s ids).success = true ↔ ∀ pid ∈ ids, s.archiveOk pid = true := by
  induction ids generalizing s with
  | nil => simp [delete_pages]
  | cons pid rest ih =>
    by_cases h : s.archiveOk pid = true
    · have harch : s.archive pid
          = (true, { s with pages := s.pages.filter (fun p => p.1 != pid) }) := by
        unfold Store.archive
        rw [if_pos h]
      simp [delete_pages, harch, ih, h]
    · have hf : s.archiveOk pid = false := by simpa using h
      have harch : s.archive pid = (false, s) := by
        unfold Store.archive
        rw [if_neg (by simp [hf])]
      simp [delete_pages, harch, hf]

/-- When every archive is accepted, the issued requests are exactly the
given ids, in the given order. -/
theorem delete_pages_requests_of_all_ok (s : Store) (ids : List String)
    (h : ∀ pid ∈ ids, s.archiveOk pid = true) :
    (delete_pages s ids).requests = ids := by
  induction ids generalizing s with
  | nil => rfl
  | cons pid rest ih =>
    have hp := h pid (List.mem_cons_self pid rest)
    have harch : s.archive pid
        = (true, { s with pages := s.pages.filter (fun p => p.1 != pid) }) := by
      unfold Store.archive
      rw [if_pos hp]
    simp [delete_pages, harch]
    exact ih _ (fun q hq => h q (List.mem_cons_of_mem _ hq))

/-- At the first rejected id the run stops: the result is `false` and
the issued requests are the accepted prefix plus the rejected id. -/
theorem delete_pages_stops (s : Store) (pre : List String) (x : String) (post : List String)
    (hpre : ∀ pid ∈ pre, s.archiveOk pid = true) (hx : s.archiveOk x = false) :
    (delete_pages s (pre ++ x :: post)).success = false
    ∧ (delete_pages s (pre ++ x :: post)).requests = pre ++ [x] := by
  induction pre generalizing s with
  | nil =>
    have harch : s.archive x = (false, s) := by
      unfold Store.archive
      rw [if_neg (by simp [hx])]
    simp [delete_pages, harch]
  | cons pid rest ih =>
    have hp := hpre pid (List.mem_cons_self pid rest)
    have harch : s.archive pid
        = (true, { s with pages := s.pages.filter (fun p => p.1 != pid) }) := by
      unfold Store.archive
      rw [if_pos hp]
    simp only [List.cons_append, delete_pages, harch]
    have hrec := ih { s with pages := s.pages.filter (fun p => p.1 != pid) }
      (fun q hq => hpre q (List.mem_cons_of_mem _ hq)) hx
    simp [hrec.1, hrec.2]

/-- `delete_pages` never touches the store's policies or id counter. -/
theorem delete_pages_store_fields (s : Store) (ids : List String) :
    (delete_pages s ids).store.archiveOk = s.archiveOk
    ∧ (delete_pages s ids).store.createOk = s.createOk
    ∧ (delete_pages s ids).store.nextId = s.nextId := by
  induction ids generalizing s with
  | nil => exact ⟨rfl, rfl, rfl⟩
  | cons pid rest ih =>
    by_cases h : s.archiveOk pid = true
    · have harch : s.archive pid
          = (true, { s with pages := s.pages.filter (fun p => p.1 != pid) }) := by
        unfold Store.archive
        rw [if_pos h]
      simp only [delete_pages, harch]
      simpa using ih _
    · have hf : s.archiveOk pid = false := by simpa using h
      have harch : s.archive pid = (false, s) := by
        unfold Store.archive
        rw [if_neg (by simp [hf])]
      simp [delete_pages, harch]

/-- When every archive is accepted, the surviving pages are those whose
id was never in the deleted list. -/
theorem delete_pages_pages_of_all_ok (s : Store) (ids : List String)
    (h : ∀ pid ∈ ids, s.archiveOk pid = true) :
    (delete_pages s ids).store.pages
      = s.pages.filter (fun p => !(ids.contains p.1)) := by
  induction ids generalizing s with
  | nil => simp [delete_pages]
  | cons pid rest ih =>
    have hp := h pid (List.mem_cons_self pid rest)
    have harch : s.archive pid
        = (true, { s with pages := s.pages.filter (fun p => p.1 != pid) }) := by
      unfold Store.archive
      rw [if_pos hp]
    simp only [delete_pages, harch, if_true]
    rw [ih { s with pages := s.pages.filter (fun p => p.1 != pid) }
        (fun q hq => h q (List.mem_cons_of_mem _ hq))]
    rw [List.filter_filter]
    congr 1
    funext p
    simp only [List.contains_cons, bne, Bool.not_or]
    by_cases hpp : p.1 = pid <;> by_cases hpr : p.1 ∈ rest <;> simp [hpp, hpr]

/-- Deleting exactly the ids currently in the store empties it. -/
theorem delete_all_current_empties (s : Store)
    (h : ∀ pid ∈ list_current_page_ids s, s.archiveOk pid = true) :
    (delete_pages s (list_current_page_ids s)).store.pages = [] := by
  rw [delete_pages_pages_of_all_ok s _ h]
  rw [List.filter_eq_nil_iff]
  intro p hp
  have hmem : p.1 ∈ s.pages.map Prod.fst := List.mem_map_of_mem Prod.fst hp
  simp [list_current_page_ids, hmem]

/-! ## C2: deletion order and early stop -/

/-- C2: `delete_pages` issues archive requests in the given order,
stops at the first id the store rejects (returning `false`, with no
request for any later id), and returns `true` exactly when every
archive in the sequence is accepted. -/
theorem delete_pages_spec (s : Store) (ids : List String) :
    ((delete_pages s ids).success = true ↔ ∀ pid ∈ ids, s.archiveOk pid = true)
    ∧ ((∀ pid ∈ ids, s.archiveOk pid = true) → (delete_pages s ids).requests = ids)
    ∧ (∀ pre x post, ids = pre ++ x :: post →
        (∀ pid ∈ pre, s.archiveOk pid = true) → s.archiveOk x = false →
        (delete_pages s ids).success = false
        ∧ (delete_pages s ids).requests = pre ++ [x]) :=
  ⟨delete_pages_success_iff s ids,
   delete_pages_requests_of_all_ok s ids,
   fun pre x post heq hpre hx => heq ▸ delete_pages_stops s pre x post hpre hx⟩

/-- Witness for C2: with the second of three ids rejected, the run
fails after issuing exactly the first two archive requests. -/
theorem delete_pages_spec_witness :
    (delete_pages sampleStoreRejectB ["a", "b", "c"]).success = false
    ∧ (delete_pages sampleStoreRejectB ["a", "b", "c"]).requests = ["a", "b"] :=
  (delete_pages_spec sampleStoreRejectB ["a", "b", "c"]).2.2
    ["a"] "b" ["c"] rfl (by decide) (by decide)

/-! ## Insertion lemmas -/

/-- The payload of each page a successful insertion loop leaves behind
is the one built for the matching entity, in input order. -/
theorem newPages_map_snd (db_id : String) (today : Date) (n : Nat)
    (entities : List RankedEntity) :
    (newPages db_id today n entities).map Prod.snd
      = entities.map (fun e => build_page_object db_id today e true) := by
  induction entities generalizing n with
  | nil => rfl
  | cons e rest ih => simp [newPages, ih]

/-- Every id of a freshly inserted page is store-minted, with a counter
value at least the starting one. -/
theorem newPages_fst_fresh (db_id : String) (today : Date) (n : Nat)
    (entities : List RankedEntity) (pid : String)
    (h : pid ∈ (newPages db_id today n entities).map Prod.fst) :
    ∃ k, n ≤ k ∧ pid = freshPageId k := by
  induction entities generalizing n with
  | nil => simp [newPages] at h
  | cons e rest ih =>
    simp only [newPages, List.map_cons, List.mem_cons] at h
    rcases h with h | h
    · exact ⟨n, Nat.le_refl n, h⟩
    · obtain ⟨k, hk, he⟩ := ih (n + 1) h
      exact ⟨k, by omega, he⟩

/-- A successful insertion run appends exactly the freshly built pages
to the store, in input order. -/
theorem create_pages_success_shape (today : Date) (db_id : String) (s : Store)
    (entities : List RankedEntity)
    (h : (create_pages today db_id s entities).success = true) :
    (create_pages today db_id s entities).store.pages
      = s.pages ++ newPages db_id today s.nextId entities := by
  induction entities generalizing s with
  | nil => simp [create_pages, newPages]
  | cons e rest ih =>
    by_cases hc : s.createOk (build_page_object db_id today e true) = true
    · have hcr : s.create (build_page_object db_id today e true)
          = (true, { s with
              pages := s.pages ++ [(freshPageId s.nextId, build_page_object db_id today e true)],
              nextId := s.nextId + 1 }) := by
        unfold Store.create
        rw [if_pos hc]
      simp only [create_pages, hcr, if_true] at h ⊢
      rw [ih { s with
              pages := s.pages ++ [(freshPageId s.nextId, build_page_object db_id today e true)],
              nextId := s.nextId + 1 } h]
      simp [newPages]
    · have hf : s.createOk (build_page_object db_id today e true) = false := by simpa using hc
      have hcr : s.create (build_page_object db_id today e true) = (false, s) := by
        unfold Store.create
        rw [if_neg (by simp [hf])]
      simp [create_pages, hcr] at h

/-! ## C1: full-replace reconciliation -/

/-- C1: when `update_db` reports success, the store holds exactly one
freshly built page per input entity, in input order, and no page that
was in the store before the run is still there (given that existing
ids cannot collide with ids the store has yet to mint). -/
theorem update_db_success_reconciles (today : Date) (w : NotionWriterState) (s : Store)
    (entities : List RankedEntity)
    (hfresh : ∀ pid ∈ list_current_page_ids s, ∀ k, s.nextId ≤ k → pid ≠ freshPageId k)
    (h : (update_db today w s entities).success = true) :
    ((update_db today w s entities).store.pages = newPages w.db_id today s.nextId entities)
    ∧ ((update_db today w s entities).store.pages.map Prod.snd
        = entities.map (fun e => build_page_object w.db_id today e true))
    ∧ (∀ pid ∈ list_current_page_ids s,
        pid ∉ (update_db today w s entities).store.pages.map Prod.fst) := by
  have hd : (delete_pages s (list_current_page_ids s)).success = true := by
    by_contra hne
    have hfd : (delete_pages s (list_current_page_ids s)).success = false := by
      simpa using hne
    unfold update_db at h
    rw [if_neg (by simp [hfd])] at h
    simp at h
  have hall : ∀ pid ∈ list_current_page_ids s, s.archiveOk pid = true :=
    (delete_pages_success_iff s _).mp hd
  have hud : update_db today w s entities
      = ⟨(create_pages today w.db_id (delete_pages s (list_current_page_ids s)).store entities).success,
         (create_pages today w.db_id (delete_pages s (list_current_page_ids s)).store entities).store,
         (delete_pages s (list_current_page_ids s)).requests,
         (create_pages today w.db_id (delete_pages s (list_current_page_ids s)).store entities).requests⟩ := by
    unfold update_db
    rw [if_pos hd]
  rw [hud] at h
  have hempty : (delete_pages s (list_current_page_ids s)).store.pages = [] :=
    delete_all_current_empties s hall
  have hnext : (delete_pages s (list_current_page_ids s)).store.nextId = s.nextId :=
    (delete_pages_store_fields s _).2.2
  have hshape := create_pages_success_shape today w.db_id
    (delete_pages s (list_current_page_ids s)).store entities h
  rw [hempty, hnext, List.nil_append] at hshape
  rw [hud]
  refine ⟨hshape, ?_, ?_⟩
  · rw [hshape, newPages_map_snd]
  · intro pid hpid hmem
    rw [hshape] at hmem
    obtain ⟨k, hk, he⟩ := newPages_fst_fresh w.db_id today s.nextId entities pid hmem
    exact hfresh pid hpid k hk he

/-- Witness for C1: a store holding two stale pages accepts every
request; syncing two entities replaces them by the two freshly built
pages, with no stale id surviving. -/
theorem update_db_success_reconciles_witness :
    ((update_db sampleDate sampleWriter sampleStoreAllOk sampleEntities).store.pages
        = newPages sampleWriter.db_id sampleDate sampleStoreAllOk.nextId sampleEntities)
    ∧ ((update_db sampleDate sampleWriter sampleStoreAllOk sampleEntities).store.pages.map Prod.snd
        = sampleEntities.map (fun e => build_page_object sampleWriter.db_id sampleDate e true))
    ∧ (∀ pid ∈ list_current_page_ids sampleStoreAllOk,
        pid ∉ (update_db sampleDate sampleWriter sampleStoreAllOk sampleEntities).store.pages.map
          Prod.fst) :=
  update_db_success_reconciles sampleDate sampleWriter sampleStoreAllOk sampleEntities
    (by
      intro pid hpid k hk
      have hab : pid = "a" ∨ pid = "b" := by
        simpa [list_current_page_ids, sampleStoreAllOk] using hpid
      rcases hab with rfl | rfl <;> exact ne_freshPageId_of_head _ (by decide) k)
    rfl

/-! ## C4: syncing the empty ranking -/

/-- C4: `update_db []` archives every current page and inserts nothing,
leaving the store empty and returning `true`; run again on the now
empty store it issues no archive and no create request, changes
nothing, and again returns `true`. -/
theorem update_db_empty_idempotent (today : Date) (w : NotionWriterState) (s : Store)
    (h : ∀ pid ∈ list_current_page_ids s, s.archiveOk pid = true) :
    (update_db today w s []).success = true
    ∧ (update_db today w s []).store.pages = []
    ∧ (update_db today w s []).archiveRequests = list_current_page_ids s
    ∧ (update_db today w s []).createRequests = []
    ∧ update_db today w (update_db today w s []).store []
        = ⟨true, (update_db today w s []).store, [], []⟩ := by
  have hd : (delete_pages s (list_current_page_ids s)).success = true :=
    (delete_pages_success_iff s _).mpr h
  have hud : update_db today w s []
      = ⟨true, (delete_pages s (list_current_page_ids s)).store,
         (delete_pages s (list_current_page_ids s)).requests, []⟩ := by
    unfold update_db
    rw [if_pos hd]
    have hc : create_pages today w.db_id (delete_pages s (list_current_page_ids s)).store []
        = ⟨true, (delete_pages s (list_current_page_ids s)).store, []⟩ := rfl
    rw [hc]
  have hempty : (delete_pages s (list_current_page_ids s)).store.pages = [] :=
    delete_all_current_empties s h
  refine ⟨by rw [hud], by rw [hud]; exact hempty,
          by rw [hud]; exact delete_pages_requests_of_all_ok s _ h, by rw [hud], ?_⟩
  rw [hud]
  have hids : list_current_page_ids (delete_pages s (list_current_page_ids s)).store = [] := by
    show ((delete_pages s (list_current_page_ids s)).store.pages).map Prod.fst = []
    rw [hempty]
    rfl
  unfold update_db
  rw [hids]
  rfl

/-- Witness for C4: a two-page store where every archive succeeds. -/
theorem update_db_empty_idempotent_witness :
    (update_db sampleDate sampleWriter sampleStoreAllOk []).success = true
    ∧ (update_db sampleDate sampleWriter sampleStoreAllOk []).store.pages = []
    ∧ (update_db sampleDate sampleWriter sampleStoreAllOk []).archiveRequests
        = list_current_page_ids sampleStoreAllOk
    ∧ (update_db sampleDate sampleWriter sampleStoreAllOk []).createRequests = []
    ∧ update_db sampleDate sampleWriter
          (update_db sampleDate sampleWriter sampleStoreAllOk []).store []
        = ⟨true, (update_db sampleDate sampleWriter sampleStoreAllOk []).store, [], []⟩ :=
  update_db_empty_idempotent sampleDate sampleWriter sampleStoreAllOk
    (fun _ _ => rfl)

end NotionSync
